import Mathlib

/-!
Shallow embedding of the typing-test repository's game engine.

The embedded code is the class TypingEngine (file TypingEngine.ts) together
with the grid builder of the older hook implementation (src/hooks/use-typing.tsx),
which the engine file mirrors.  JavaScript strings are modelled as List Char;
a slot letter is Option Char (none models the empty-string placeholder);
JavaScript numbers used as indices are modelled as Int, so that positions such
as letter = -1 (which arise from Array.prototype length arithmetic on empty
arrays) stay representable.  Array reads that JavaScript performs on a
possibly-undefined element and that would throw a TypeError are modelled with
Except Unit; reads guarded by optional chaining or truthiness checks yield
Option values without an error.
-/

deriving instance DecidableEq for Except

namespace Typing

/-- Correctness verdict of a typed slot; mirrors the status field of
ILetterData, whose JavaScript type is the string union correct / incorrect. -/
inductive Status where
  | correct
  | incorrect
deriving DecidableEq

/-- One grid cell; mirrors ILetterData.  The letter none models the
empty-string placeholder that represents the space after a word. -/
structure LetterData where
  letter : Option Char
  typed : Bool
  status : Option Status
deriving DecidableEq

/-- Caret position; mirrors ITextCoord.  Components are Int because the
JavaScript code can produce negative letter offsets on degenerate grids. -/
structure TextCoord where
  word : Int
  letter : Int
deriving DecidableEq

/-- Session state; mirrors IGameState of TypingEngine.ts. -/
structure GameState where
  text : List Char
  data : List (List LetterData)
  timeLimit : Option Nat
  counter : Nat
  isRunning : Bool
  isOver : Bool
  currentPos : TextCoord
deriving DecidableEq

/-- Result record; mirrors IGameResult. -/
structure GameResult where
  correct : Nat
  incorrect : Nat
  total : Nat
  wpm : Int
  accuracy : Int
deriving DecidableEq

/-- JavaScript array read a[i]: undefined (none) when i is negative or past
the end. -/
def jsGet {α : Type} (l : List α) (i : Int) : Option α :=
  if h : 0 ≤ i ∧ i.toNat < l.length then some (l.get ⟨i.toNat, h.2⟩) else none

/-- JavaScript array write a[i] = x for an index that was just read
successfully; out-of-range writes never occur in the embedded code paths, and
List.set leaves the list unchanged there. -/
def jsSet {α : Type} (l : List α) (i : Int) (x : α) : List α :=
  if 0 ≤ i then l.set i.toNat x else l

/-- The slot a grid addresses at word w, letter l, read with optional
chaining (never throws). -/
def slotAt (d : List (List LetterData)) (w l : Int) : Option LetterData :=
  match jsGet d w with
  | some arr => jsGet arr l
  | none => none

/-- JavaScript String.prototype.split with separator a single space,
restricted to the one-character separator actually used:
an empty input gives one empty word, and each space starts a new word. -/
def splitOnSpace : List Char → List (List Char)
  | [] => [[]]
  | c :: rest =>
    if c = ' ' then [] :: splitOnSpace rest
    else
      match splitOnSpace rest with
      | [] => [[c]]
      | w :: ws => (c :: w) :: ws

/-- A freshly created slot for a real character; mirrors the object literal
built from word.split of the sources. -/
def mkLetter (c : Char) : LetterData :=
  { letter := some c, typed := false, status := none }

/-- The separator slot pushed after a word; its letter is the empty string. -/
def placeholder : LetterData :=
  { letter := none, typed := false, status := none }

/-- TypingEngine.createTextdata (TypingEngine.ts lines 156-164): split the
text on spaces, map each word to its letter slots, and append one placeholder
to every word whose index differs from words.length - 1. -/
def createTextdata (text : List Char) : List (List LetterData) :=
  let words := splitOnSpace text
  words.mapIdx fun wordIndex word =>
    let letters := word.map mkLetter
    if (wordIndex : Int) ≠ (words.length : Int) - 1 then letters ++ [placeholder] else letters

/-- The createTextdata of the hook (use-typing.tsx lines 71-84).  Identical
except for the placeholder condition, which compares wordIndex with
word.length - 1, the length of the word string itself. -/
def hookCreateTextdata (text : List Char) : List (List LetterData) :=
  let words := splitOnSpace text
  words.mapIdx fun wordIndex word =>
    let letters := word.map mkLetter
    if (wordIndex : Int) ≠ (word.length : Int) - 1 then letters ++ [placeholder] else letters

/-- TypingEngine.getInitialState. -/
def getInitialState : GameState :=
  { text := []
    data := []
    timeLimit := none
    counter := 0
    isRunning := false
    isOver := false
    currentPos := { word := 0, letter := 0 } }

/-- The state installed by TypingEngine.createNewGame once the external
generateText collaborator has produced text: the initial state with text,
data built by createTextdata, and the requested time limit.  The text is a
parameter because generateText is outside the engine. -/
def newGameState (text : List Char) (timeLimit : Option Nat) : GameState :=
  { getInitialState with text := text, data := createTextdata text, timeLimit := timeLimit }

/-- TypingEngine.stop, state part: clear isRunning (the interval handle is
host-owned and carries no engine state). -/
def stop (s : GameState) : GameState :=
  { s with isRunning := false }

/-- TypingEngine.start: a no-op while running, otherwise set isRunning, clear
isOver and reset the counter; all other fields are untouched. -/
def start (s : GameState) : GameState :=
  if s.isRunning then s
  else { s with isRunning := true, isOver := false, counter := 0 }

/-- TypingEngine.endGame, state part: stop, then mark the session over. -/
def endGame (s : GameState) : GameState :=
  { stop s with isOver := true, isRunning := false }

/-- Second end condition checked by TypingEngine.tick: the caret sits on the
last word at or past its slot-array length.  The word array is only read when
the caret word equals data.length - 1, which is in range, so no throw is
possible here. -/
def tickEndCheck (s : GameState) : GameState :=
  match jsGet s.data s.currentPos.word with
  | some arr =>
    if 0 < s.data.length ∧ s.currentPos.word = (s.data.length : Int) - 1 ∧
        (arr.length : Int) ≤ s.currentPos.letter then
      endGame s
    else s
  | none => s

/-- TypingEngine.tick: increment the counter, then end the game when a truthy
time limit has been reached (a time limit of 0 is falsy in JavaScript and
never triggers this branch), otherwise check the last-word condition. -/
def tick (s : GameState) : GameState :=
  let s1 := { s with counter := s.counter + 1 }
  match s1.timeLimit with
  | some t => if t ≠ 0 ∧ t ≤ s1.counter then endGame s1 else tickEndCheck s1
  | none => tickEndCheck s1

/-- Keyboard events as the engine distinguishes them: e.key equal to Escape,
to Backspace, to a single space (or e.code equal to Space), and every other
key, carried as its e.key string. -/
inductive KeyEvent where
  | escape
  | backspace
  | space
  | other (key : List Char)
deriving DecidableEq

/-- The comparison slot.letter === e.key of the source, with the slot letter
being a one-character string or the empty string. -/
def keyMatches (l : Option Char) (k : List Char) : Bool :=
  match l with
  | some c => decide (k = [c])
  | none => decide (k = [])

/-- Backspace slot reset (TypingEngine.ts lines 293-296): when the addressed
slot exists, clear its typed flag and status; otherwise leave the grid alone. -/
def clearSlot (d : List (List LetterData)) (w l : Int) : List (List LetterData) :=
  match jsGet d w with
  | none => d
  | some arr =>
    match jsGet arr l with
    | none => d
    | some slot => jsSet d w (jsSet arr l { slot with typed := false, status := none })

/-- The slot written by a printable key: typed becomes true and the status
records whether the key matches the slot letter. -/
def markSlot (slot : LetterData) (k : List Char) : LetterData :=
  { slot with
    typed := true
    status := some (if keyMatches slot.letter k then Status.correct else Status.incorrect) }

/-- Printable-key write phase (TypingEngine.ts lines 327-344) at the possibly
rolled-forward position (w, l): the slot is read with optional chaining, so a
missing slot is a silent no-op; after a write the caret advances and the
last-character end condition is evaluated with short-circuit conjunction. -/
def handleOtherAt (s : GameState) (k : List Char) (w l : Int) : Except Unit GameState :=
  match jsGet s.data w with
  | none => Except.ok s
  | some arr =>
    match jsGet arr l with
    | none => Except.ok s
    | some slot =>
      let s1 : GameState :=
        { s with
          data := jsSet s.data w (jsSet arr l (markSlot slot k))
          currentPos := { word := w, letter := l + 1 } }
      if w = (s1.data.length : Int) - 1 then
        match jsGet s1.data w with
        | none => Except.error ()
        | some arr1 =>
          if (arr1.length : Int) ≤ l + 1 then Except.ok (endGame s1) else Except.ok s1
      else Except.ok s1

/-- TypingEngine.handleKey (TypingEngine.ts lines 266-345).  An error value
models a thrown TypeError from reading length of an undefined word array; all
other paths are total.  The guards on an empty grid and on isOver come first;
there is no guard on isRunning. -/
def handleKey (s : GameState) (e : KeyEvent) : Except Unit GameState :=
  if s.data.length = 0 then Except.ok s
  else if s.isOver then Except.ok s
  else
    match e with
    | KeyEvent.escape => Except.ok (endGame s)
    | KeyEvent.backspace =>
      let wordOffset := s.currentPos.word
      let letterOffset := s.currentPos.letter
      if letterOffset = 0 then
        if wordOffset = 0 then Except.ok s
        else
          let w := max 0 (wordOffset - 1)
          match jsGet s.data w with
          | none => Except.error ()
          | some arr =>
            let l := (arr.length : Int) - 1
            Except.ok { s with
              data := clearSlot s.data w l
              currentPos := { word := w, letter := l } }
      else
        let l := letterOffset - 1
        Except.ok { s with
          data := clearSlot s.data wordOffset l
          currentPos := { word := wordOffset, letter := l } }
    | KeyEvent.space =>
      if s.currentPos.letter = 0 then Except.ok s
      else
        Except.ok { s with currentPos :=
          { word := min (s.currentPos.word + 1) ((s.data.length : Int) - 1), letter := 0 } }
    | KeyEvent.other k =>
      match jsGet s.data s.currentPos.word with
      | none => Except.error ()
      | some arr =>
        if (arr.length : Int) = s.currentPos.letter then
          if (s.data.length : Int) ≤ s.currentPos.word + 1 then Except.ok (endGame s)
          else handleOtherAt s k (s.currentPos.word + 1) 0
        else handleOtherAt s k s.currentPos.word s.currentPos.letter

/-- Sequential key handling, used to exhibit concrete reachable states. -/
def runKeys (s : GameState) : List KeyEvent → Except Unit GameState
  | [] => Except.ok s
  | e :: es =>
    match handleKey s e with
    | Except.ok s1 => runKeys s1 es
    | Except.error err => Except.error err

/-- One step of the counting loop of TypingEngine.getResult: placeholders are
skipped entirely; every other slot is counted, and its status feeds the
correct or incorrect tally. -/
def countStep (acc : Nat × Nat × Nat) (slot : LetterData) : Nat × Nat × Nat :=
  if slot.letter = none then acc
  else
    match slot.status with
    | some Status.correct => (acc.1 + 1, acc.2.1, acc.2.2 + 1)
    | some Status.incorrect => (acc.1, acc.2.1 + 1, acc.2.2 + 1)
    | none => (acc.1, acc.2.1, acc.2.2 + 1)

/-- The two nested for-loops of TypingEngine.getResult, as a fold producing
(correct, incorrect, totalChars). -/
def countSlots (d : List (List LetterData)) : Nat × Nat × Nat :=
  d.foldl (fun acc word => word.foldl countStep acc) (0, 0, 0)

/-- TypingEngine.getResult (TypingEngine.ts lines 350-384).  Rational
arithmetic models exact JavaScript number arithmetic on these small values;
Mathlib round is floor of x + 1/2, which is Math.round on the non-negative
finite values produced here, and the trailing or-zero of the source only maps
0 to 0 because rawWpm is never NaN. -/
def getResult (s : GameState) : GameResult :=
  let counts := countSlots s.data
  let correct := counts.1
  let incorrect := counts.2.1
  let totalChars := counts.2.2
  let total := if 0 < totalChars then totalChars else s.text.length
  let elapsedSeconds : Nat := max 1 s.counter
  let elapsedMinutes : ℚ := (elapsedSeconds : ℚ) / 60
  let rawWpm : ℚ := ((correct : ℚ) / 5) / elapsedMinutes
  let accuracy : Int :=
    if correct + incorrect = 0 then 0
    else round (((correct : ℚ) * 100) / ((correct : ℚ) + (incorrect : ℚ)))
  { correct := correct
    incorrect := incorrect
    total := total
    wpm := round rawWpm
    accuracy := accuracy }

/-- A slot counted as correct by the result loop: a non-placeholder slot with
status correct. -/
def isRealCorrect (slot : LetterData) : Bool :=
  slot.letter.isSome && decide (slot.status = some Status.correct)

/-- A slot counted as incorrect by the result loop. -/
def isRealIncorrect (slot : LetterData) : Bool :=
  slot.letter.isSome && decide (slot.status = some Status.incorrect)

/-- A non-placeholder slot. -/
def isReal (slot : LetterData) : Bool :=
  slot.letter.isSome

/-- Number of non-placeholder slots marked correct across the grid. -/
def correctSlots (d : List (List LetterData)) : Nat :=
  (d.map fun w => (w.filter isRealCorrect).length).sum

/-- Number of non-placeholder slots marked incorrect across the grid. -/
def incorrectSlots (d : List (List LetterData)) : Nat :=
  (d.map fun w => (w.filter isRealIncorrect).length).sum

/-- Number of non-placeholder slots across the grid. -/
def realSlots (d : List (List LetterData)) : Nat :=
  (d.map fun w => (w.filter isReal).length).sum

/-- An observer callback, abstracted by its observable behaviour: invoking it
emits its identifier out, and it then throws when throws is set. -/
structure Callback where
  out : Nat
  throws : Bool
deriving DecidableEq

/-- TypingEngine.emitState (lines 250-261): every state-change callback is
invoked inside its own try/catch, so a throwing callback is swallowed and the
remaining callbacks still run; the returned list records the invocations. -/
def notifyCaught : List Callback → List Nat
  | [] => []
  | cb :: rest => cb.out :: notifyCaught rest

/-- The unprotected forEach over game-over callbacks in TypingEngine.endGame
(line 247): callbacks run in order until the first one that throws; its
exception aborts the iteration and propagates.  The result pairs the
invocation list with the propagated exception, if any. -/
def notifyAll : List Callback → List Nat × Option Nat
  | [] => ([], none)
  | cb :: rest =>
    if cb.throws then ([cb.out], some cb.out)
    else
      let r := notifyAll rest
      (cb.out :: r.1, r.2)

/-- TypingEngine.endGame with its notifications: the state transition and the
result are computed first, state-change subscribers are notified through
emitState (once from stop and once from endGame itself, both protected), and
only then do the game-over callbacks run unprotected. -/
def endGameNotify (s : GameState) (stateCbs overCbs : List Callback) :
    GameState × List Nat × (List Nat × Option Nat) :=
  (endGame s, notifyCaught stateCbs ++ notifyCaught stateCbs, notifyAll overCbs)

/-- Text of scenario A of the specification. -/
def catDogText : List Char := ['c', 'a', 't', ' ', 'd', 'o', 'g']

/-- A three-word text whose word lengths collide with their indices in the
hook's placeholder condition. -/
def abcText : List Char := ['a', ' ', 'b', 'b', ' ', 'c']

/-- The slot at word 0, letter 3 of a state, the placeholder of the first
word of the cat-dog grid. -/
def slot03 (s : GameState) : Option LetterData := slotAt s.data 0 3

/-- A running cat-dog session whose caret sits at the terminal position, one
past the last slot of the last word. -/
def terminalPosState : GameState :=
  { newGameState catDogText none with currentPos := { word := 1, letter := 3 }, isRunning := true }

/-- A running cat-dog session whose caret word index lies beyond the grid. -/
def desyncState : GameState :=
  { newGameState catDogText none with currentPos := { word := 5, letter := 0 }, isRunning := true }

/-- A running cat-dog session one second before its 15-second limit. -/
def timeoutState : GameState :=
  { newGameState catDogText (some 15) with isRunning := true, counter := 14 }

/-! Helper lemmas about the counting loop and the array primitives. -/

lemma notifyCaught_map (cbs : List Callback) : notifyCaught cbs = cbs.map Callback.out := by
  induction cbs with
  | nil => rfl
  | cons cb rest ih => simp [notifyCaught, ih]

lemma foldl_countStep (w : List LetterData) (acc : Nat × Nat × Nat) :
    w.foldl countStep acc =
      (acc.1 + (w.filter isRealCorrect).length,
       acc.2.1 + (w.filter isRealIncorrect).length,
       acc.2.2 + (w.filter isReal).length) := by
  induction w generalizing acc with
  | nil => simp
  | cons slot rest ih =>
    obtain ⟨letter, typed, status⟩ := slot
    rw [List.foldl_cons, ih]
    rcases letter with _ | c <;> rcases status with _ | st <;> (try cases st) <;>
      simp [countStep, isRealCorrect, isRealIncorrect, isReal, List.filter_cons,
        Prod.ext_iff] <;> omega

lemma foldl_countWords (d : List (List LetterData)) (acc : Nat × Nat × Nat) :
    d.foldl (fun acc word => word.foldl countStep acc) acc =
      (acc.1 + correctSlots d, acc.2.1 + incorrectSlots d, acc.2.2 + realSlots d) := by
  induction d generalizing acc with
  | nil => simp [correctSlots, incorrectSlots, realSlots]
  | cons w rest ih =>
    rw [List.foldl_cons, foldl_countStep, ih]
    simp [correctSlots, incorrectSlots, realSlots, Prod.ext_iff]
    omega

lemma countSlots_eq (d : List (List LetterData)) :
    countSlots d = (correctSlots d, incorrectSlots d, realSlots d) := by
  rw [countSlots, foldl_countWords]
  simp

lemma getResult_correct (s : GameState) : (getResult s).correct = correctSlots s.data := by
  simp [getResult, countSlots_eq]

lemma getResult_incorrect (s : GameState) : (getResult s).incorrect = incorrectSlots s.data := by
  simp [getResult, countSlots_eq]

lemma getResult_total (s : GameState) :
    (getResult s).total = if 0 < realSlots s.data then realSlots s.data else s.text.length := by
  simp [getResult, countSlots_eq]

lemma getResult_wpm (s : GameState) :
    (getResult s).wpm =
      round (((correctSlots s.data : ℚ) / 5) / (((max 1 s.counter : Nat) : ℚ) / 60)) := by
  simp [getResult, countSlots_eq]

lemma getResult_accuracy (s : GameState) :
    (getResult s).accuracy =
      if (getResult s).correct + (getResult s).incorrect = 0 then 0
      else round ((((getResult s).correct : ℚ) * 100) /
        (((getResult s).correct : ℚ) + ((getResult s).incorrect : ℚ))) := by
  simp [getResult, countSlots_eq]

lemma round_ratio_nonneg (c i : Nat) (h : c + i ≠ 0) :
    0 ≤ round (((c : ℚ) * 100) / ((c : ℚ) + (i : ℚ))) := by
  have hpos : (0 : ℚ) < (c : ℚ) + (i : ℚ) := by
    have : 0 < c + i := Nat.pos_of_ne_zero h
    exact_mod_cast this
  have hx0 : 0 ≤ ((c : ℚ) * 100) / ((c : ℚ) + (i : ℚ)) := by positivity
  rw [round_eq]
  exact Int.le_floor.mpr (by push_cast; linarith)

lemma round_ratio_le_100 (c i : Nat) (h : c + i ≠ 0) :
    round (((c : ℚ) * 100) / ((c : ℚ) + (i : ℚ))) ≤ 100 := by
  have hpos : (0 : ℚ) < (c : ℚ) + (i : ℚ) := by
    have : 0 < c + i := Nat.pos_of_ne_zero h
    exact_mod_cast this
  have hc : (c : ℚ) ≤ (c : ℚ) + (i : ℚ) := by
    have : (0 : ℚ) ≤ (i : ℚ) := by positivity
    linarith
  have hx100 : ((c : ℚ) * 100) / ((c : ℚ) + (i : ℚ)) ≤ 100 := by
    rw [div_le_iff₀ hpos]
    nlinarith
  rw [round_eq]
  have hlt : (⌊((c : ℚ) * 100) / ((c : ℚ) + (i : ℚ)) + 1 / 2⌋ : ℤ) < 101 :=
    Int.floor_lt.mpr (by push_cast; linarith)
  omega

lemma jsGet_jsSet_ne {α : Type} (l : List α) (i j : Int) (x : α) (h : j ≠ i) :
    jsGet (jsSet l i x) j = jsGet l j := by
  by_cases hi : 0 ≤ i
  · rw [show jsSet l i x = l.set i.toNat x from if_pos hi]
    unfold jsGet
    simp only [List.length_set]
    by_cases hj : 0 ≤ j ∧ j.toNat < l.length
    · rw [dif_pos hj, dif_pos hj]
      have hne : i.toNat ≠ j.toNat := by omega
      simp [List.getElem_set_ne hne]
    · rw [dif_neg hj, dif_neg hj]
  · rw [show jsSet l i x = l from if_neg hi]

lemma jsGet_jsSet_self {α : Type} (l : List α) (i : Int) (x : α)
    (hsome : (jsGet l i).isSome) : jsGet (jsSet l i x) i = some x := by
  unfold jsGet at hsome
  by_cases h : 0 ≤ i ∧ i.toNat < l.length
  · unfold jsGet jsSet
    rw [if_pos h.1]
    have h2 : 0 ≤ i ∧ i.toNat < (l.set i.toNat x).length := by
      simpa [List.length_set] using h
    rw [dif_pos h2]
    simp
  · rw [dif_neg h] at hsome
    simp at hsome

lemma slotAt_clearSlot (d : List (List LetterData)) (w l w' l' : Int) :
    slotAt (clearSlot d w l) w' l' = slotAt d w' l' ∨
    ∃ slot, slotAt d w' l' = some slot ∧
      slotAt (clearSlot d w l) w' l' = some { slot with typed := false, status := none } := by
  rcases hw : jsGet d w with _ | arr
  · have hcs : clearSlot d w l = d := by simp [clearSlot, hw]
    rw [hcs]
    exact Or.inl rfl
  · rcases hl : jsGet arr l with _ | slot
    · have hcs : clearSlot d w l = d := by simp [clearSlot, hw, hl]
      rw [hcs]
      exact Or.inl rfl
    · have hcs : clearSlot d w l =
          jsSet d w (jsSet arr l { slot with typed := false, status := none }) := by
        simp [clearSlot, hw, hl]
      rw [hcs]
      by_cases hww : w' = w
      · subst hww
        have harr : jsGet (jsSet d w' (jsSet arr l { slot with typed := false, status := none })) w' =
            some (jsSet arr l { slot with typed := false, status := none }) :=
          jsGet_jsSet_self d w' _ (by simp [hw])
        by_cases hll : l' = l
        · subst hll
          have hslot : jsGet (jsSet arr l' { slot with typed := false, status := none }) l' =
              some { slot with typed := false, status := none } :=
            jsGet_jsSet_self arr l' _ (by simp [hl])
          refine Or.inr ⟨slot, ?_, ?_⟩
          · simp [slotAt, hw, hl]
          · simp [slotAt, harr, hslot]
        · left
          have hni : jsGet (jsSet arr l { slot with typed := false, status := none }) l' =
              jsGet arr l' :=
            jsGet_jsSet_ne arr l l' _ hll
          simp [slotAt, harr, hw, hni]
      · left
        have hnw : jsGet (jsSet d w (jsSet arr l { slot with typed := false, status := none })) w' =
            jsGet d w' :=
          jsGet_jsSet_ne d w w' _ hww
        simp [slotAt, hnw]

lemma handleKey_space_data (s s' : GameState)
    (h : handleKey s KeyEvent.space = Except.ok s') : s'.data = s.data := by
  by_cases h0 : s.data.length = 0
  · simp [handleKey, h0] at h
    rw [← h]
  · by_cases hov : s.isOver = true
    · simp [handleKey, h0, hov] at h
      rw [← h]
    · by_cases hl0 : s.currentPos.letter = 0
      · simp [handleKey, h0, hov, hl0] at h
        rw [← h]
      · simp [handleKey, h0, hov, hl0] at h
        rw [← h]

lemma handleKey_backspace_data (s s' : GameState)
    (h : handleKey s KeyEvent.backspace = Except.ok s') :
    s'.data = s.data ∨ ∃ W L, s'.data = clearSlot s.data W L := by
  by_cases h0 : s.data.length = 0
  · simp [handleKey, h0] at h
    exact Or.inl (by rw [← h])
  · by_cases hov : s.isOver = true
    · simp [handleKey, h0, hov] at h
      exact Or.inl (by rw [← h])
    · by_cases hl0 : s.currentPos.letter = 0
      · by_cases hw0 : s.currentPos.word = 0
        · simp [handleKey, h0, hov, hl0, hw0] at h
          exact Or.inl (by rw [← h])
        · rcases hg : jsGet s.data (max 0 (s.currentPos.word - 1)) with _ | arr
          · simp [handleKey, h0, hov, hl0, hw0, hg] at h
          · simp [handleKey, h0, hov, hl0, hw0, hg] at h
            exact Or.inr ⟨_, _, by rw [← h]⟩
      · simp [handleKey, h0, hov, hl0] at h
        exact Or.inr ⟨_, _, by rw [← h]⟩

/-! The ten claims. -/

/-- Claim C1.  The claim states that the grid built at game creation has one
word-array per word of the text, with exactly one trailing placeholder on
every word except the last and none on the last.  The engine's createTextdata
satisfies this, but the hook's createTextdata (use-typing.tsx line 81)
compares the word index against the length of the word string instead of the
word count: on the three-word text a-bb-c it omits the placeholder on both
non-final words and appends one to the final word, while the engine build has
the claimed shape. -/
theorem claimC1_placeholder_shape_divergence :
    splitOnSpace abcText = [['a'], ['b', 'b'], ['c']] ∧
    hookCreateTextdata abcText =
      [[mkLetter 'a'], [mkLetter 'b', mkLetter 'b'], [mkLetter 'c', placeholder]] ∧
    createTextdata abcText =
      [[mkLetter 'a', placeholder], [mkLetter 'b', mkLetter 'b', placeholder], [mkLetter 'c']] := by
  decide

/-- Claim C2, counterexample.  In a reachable session (new cat-dog game,
started, then keys c, a, t, x), the printable key x is written into the
placeholder slot at word 0, letter 3: it ends typed with status incorrect,
refuting the claim that no placeholder is ever marked by keyboard input. -/
theorem claimC2_placeholder_cex :
    slot03 (newGameState catDogText none) = some placeholder ∧
    (runKeys (start (newGameState catDogText none))
        [KeyEvent.other ['c'], KeyEvent.other ['a'], KeyEvent.other ['t'],
         KeyEvent.other ['x']]).map slot03 =
      Except.ok (some { letter := none, typed := true, status := some Status.incorrect }) := by
  decide

/-- Claim C2, amended.  Space and Backspace indeed never set a typed flag or
assign a status anywhere (they only move the caret or clear marks): after a
successful Space or Backspace, every slot either keeps its typed flag and
status or has them cleared.  The printable-key exception is exhibited by the
counterexample. -/
theorem claimC2_amended (s s' : GameState) (e : KeyEvent)
    (he : e = KeyEvent.space ∨ e = KeyEvent.backspace)
    (h : handleKey s e = Except.ok s') (w l : Int) (slot slot' : LetterData)
    (hs : slotAt s.data w l = some slot) (hs' : slotAt s'.data w l = some slot') :
    (slot'.typed = slot.typed ∨ slot'.typed = false) ∧
    (slot'.status = slot.status ∨ slot'.status = none) := by
  have hdata : s'.data = s.data ∨ ∃ W L, s'.data = clearSlot s.data W L := by
    rcases he with rfl | rfl
    · exact Or.inl (handleKey_space_data s s' h)
    · exact handleKey_backspace_data s s' h
  rcases hdata with heq | ⟨W, L, heq⟩
  · rw [heq, hs] at hs'
    injection hs' with hh
    subst hh
    exact ⟨Or.inl rfl, Or.inl rfl⟩
  · rw [heq] at hs'
    rcases slotAt_clearSlot s.data W L w l with hsame | ⟨slot0, h0, h1⟩
    · rw [hsame, hs] at hs'
      injection hs' with hh
      subst hh
      exact ⟨Or.inl rfl, Or.inl rfl⟩
    · rw [h1] at hs'
      injection hs' with hh
      subst hh
      exact ⟨Or.inr rfl, Or.inr rfl⟩

/-- Claim C2, witness for the amended theorem at a concrete Space event. -/
theorem claimC2_witness :
    ((mkLetter 'c').typed = (mkLetter 'c').typed ∨ (mkLetter 'c').typed = false) ∧
    ((mkLetter 'c').status = (mkLetter 'c').status ∨ (mkLetter 'c').status = none) :=
  claimC2_amended
    { newGameState catDogText none with currentPos := { word := 0, letter := 1 } }
    { newGameState catDogText none with currentPos := { word := 1, letter := 0 } }
    KeyEvent.space (Or.inl rfl) (by decide) 0 0 (mkLetter 'c') (mkLetter 'c')
    (by decide) (by decide)

/-- Claim C3.  The result's wpm is round of (correct / 5) divided by the
elapsed minutes max(1, counter) / 60, where correct is the number of
non-placeholder slots marked correct; in particular it depends only on the
correct count and the counter, not on raw typed characters or word position. -/
theorem claimC3_wpm (s : GameState) :
    (getResult s).wpm =
      round (((correctSlots s.data : ℚ) / 5) / (((max 1 s.counter : Nat) : ℚ) / 60)) ∧
    (getResult s).correct = correctSlots s.data :=
  ⟨getResult_wpm s, getResult_correct s⟩

/-- Claim C4.  The result's accuracy is 0 when no slot is marked, otherwise
round of correct * 100 over correct + incorrect, and it always lies between 0
and 100. -/
theorem claimC4_accuracy (s : GameState) :
    (getResult s).accuracy =
      (if (getResult s).correct + (getResult s).incorrect = 0 then 0
       else round ((((getResult s).correct : ℚ) * 100) /
         (((getResult s).correct : ℚ) + ((getResult s).incorrect : ℚ)))) ∧
    0 ≤ (getResult s).accuracy ∧ (getResult s).accuracy ≤ 100 := by
  refine ⟨getResult_accuracy s, ?_, ?_⟩
  · rw [getResult_accuracy]
    by_cases h : (getResult s).correct + (getResult s).incorrect = 0
    · simp [h]
    · rw [if_neg h]
      exact round_ratio_nonneg _ _ h
  · rw [getResult_accuracy]
    by_cases h : (getResult s).correct + (getResult s).incorrect = 0
    · simp [h]
    · rw [if_neg h]
      exact round_ratio_le_100 _ _ h

/-- Claim C5.  With a configured (nonzero) time limit, any tick that observes
an elapsed count at or beyond the limit ends the session: afterwards isOver
holds, isRunning is cleared, and the grid and text are untouched, so the
result reflects exactly the characters typed so far. -/
theorem claimC5_timeLimit_tick (s : GameState) (t : Nat)
    (hl : s.timeLimit = some t) (ht : 0 < t) (hc : t ≤ s.counter + 1) :
    (tick s).isOver = true ∧ (tick s).isRunning = false ∧
    (tick s).data = s.data ∧ (tick s).text = s.text ∧
    (getResult (tick s)).correct = correctSlots s.data := by
  have htick : tick s = endGame { s with counter := s.counter + 1 } := by
    simp only [tick, hl]
    rw [if_pos ⟨by omega, by simpa using hc⟩]
  rw [htick]
  refine ⟨rfl, rfl, rfl, rfl, ?_⟩
  rw [getResult_correct]
  rfl

/-- Claim C5, witness: one second before a 15-second limit, the next tick
ends the running cat-dog session. -/
theorem claimC5_witness :
    (tick timeoutState).isOver = true ∧ (tick timeoutState).isRunning = false ∧
    (tick timeoutState).data = timeoutState.data ∧
    (tick timeoutState).text = timeoutState.text ∧
    (getResult (tick timeoutState)).correct = correctSlots timeoutState.data :=
  claimC5_timeLimit_tick timeoutState 15 (by decide) (by decide) (by decide)

/-- Claim C6, counterexample.  A freshly created cat-dog game is not running
and not over, yet handleKey processes a printable key and changes the state:
the handler has no isRunning guard, so handling a key while not running is
not a no-op. -/
theorem claimC6_not_running_cex :
    (newGameState catDogText none).isRunning = false ∧
    (newGameState catDogText none).isOver = false ∧
    handleKey (newGameState catDogText none) (KeyEvent.other ['c']) ≠
      Except.ok (newGameState catDogText none) := by
  decide

/-- Claim C6, amended.  Handling any keyboard event is a no-op whenever
isOver is true or the grid is empty; the engine itself does not guard on
isRunning (the hook merely refrains from attaching the listener while not
running), as the counterexample shows. -/
theorem claimC6_amended (s : GameState) (e : KeyEvent)
    (h : s.isOver = true ∨ s.data.length = 0) :
    handleKey s e = Except.ok s := by
  rcases h with h | h
  · by_cases h0 : s.data.length = 0
    · simp [handleKey, h0]
    · simp [handleKey, h0, h]
  · simp [handleKey, h]

/-- Claim C6, witness: any key on a finished cat-dog session is a no-op. -/
theorem claimC6_witness :
    handleKey (endGame (newGameState catDogText none)) KeyEvent.space =
      Except.ok (endGame (newGameState catDogText none)) :=
  claimC6_amended (endGame (newGameState catDogText none)) KeyEvent.space (Or.inl (by decide))

/-- Claim C7, counterexample.  At the terminal caret position the printable
key rolls forward past the last word and triggers endGame, so the state is
not left unchanged; and with the caret word index beyond the grid the handler
reads length of an undefined word array and throws instead of returning. -/
theorem claimC7_desync_cex :
    handleKey terminalPosState (KeyEvent.other ['x']) = Except.ok (endGame terminalPosState) ∧
    (endGame terminalPosState).isOver = true ∧ terminalPosState.isOver = false ∧
    handleKey desyncState (KeyEvent.other ['x']) = Except.error () := by
  decide

/-- Claim C7, amended.  A printable key whose addressed slot does not exist
is a safe no-op provided the caret's word is within the grid and the caret's
letter differs from that word's slot-array length; the two remaining cases,
the roll-forward past the last word (which ends the game) and a caret word
outside the grid (which throws), are exhibited by the counterexample. -/
theorem claimC7_amended (s : GameState) (k : List Char) (arr : List LetterData)
    (hov : s.isOver = false)
    (ha : jsGet s.data s.currentPos.word = some arr)
    (hlen : (arr.length : Int) ≠ s.currentPos.letter)
    (hmiss : jsGet arr s.currentPos.letter = none) :
    handleKey s (KeyEvent.other k) = Except.ok s := by
  have h0 : ¬s.data.length = 0 := by
    intro h0
    simp [jsGet, h0] at ha
  simp [handleKey, handleOtherAt, h0, hov, ha, hlen, hmiss]

/-- Claim C7, witness: a caret letter far past the first word is a safe
no-op for a printable key. -/
theorem claimC7_witness :
    handleKey
        { newGameState catDogText none with
          currentPos := { word := 0, letter := 9 }, isRunning := true }
        (KeyEvent.other ['q']) =
      Except.ok
        { newGameState catDogText none with
          currentPos := { word := 0, letter := 9 }, isRunning := true } :=
  claimC7_amended
    { newGameState catDogText none with
      currentPos := { word := 0, letter := 9 }, isRunning := true }
    ['q'] [mkLetter 'c', mkLetter 'a', mkLetter 't', placeholder]
    (by decide) (by decide) (by decide) (by decide)

/-- Claim C8, counterexample.  On the one-space text the grid is non-empty
(two word-arrays) but contains no non-placeholder slot, and the result's
total falls back to the raw text length 1 instead of the claimed count 0:
the fallback condition is a zero count, not an empty grid. -/
theorem claimC8_total_cex :
    (getResult (newGameState [' '] none)).total = 1 ∧
    realSlots (newGameState [' '] none).data = 0 ∧
    (newGameState [' '] none).data ≠ [] := by
  decide

/-- Claim C8, amended.  The result's total is the count of non-placeholder
slots whenever that count is positive, and falls back to the raw text length
whenever the count is zero, which includes both the empty grid and non-empty
grids made only of placeholders. -/
theorem claimC8_amended (s : GameState) :
    (getResult s).total =
      if 0 < realSlots s.data then realSlots s.data else s.text.length :=
  getResult_total s

/-- Claim C9, counterexample.  With game-over callbacks out 1 (throwing) and
out 2, the unprotected forEach of endGame invokes only callback 1 and lets
its exception propagate: callback 2 is never invoked, refuting the claim for
game-over notifications; the state transition itself still completes because
it precedes the notification. -/
theorem claimC9_gameover_cex :
    notifyAll [{ out := 1, throws := true }, { out := 2, throws := false }] = ([1], some 1) ∧
    (endGameNotify (newGameState catDogText none) []
        [{ out := 1, throws := true }, { out := 2, throws := false }]).1.isOver = true := by
  decide

/-- Claim C9, amended.  State-change notifications are isolated: every
state-change callback runs even when some of them throw.  Game-over
notifications are not: with non-throwing callbacks before a throwing one,
exactly the prefix up to and including the thrower runs and the exception
propagates; the engine's own transition to the over state is applied before
notification and is not rolled back. -/
theorem claimC9_amended (stateCbs pre post : List Callback) (cb : Callback) (s : GameState)
    (hpre : ∀ c ∈ pre, c.throws = false) (hcb : cb.throws = true) :
    notifyCaught stateCbs = stateCbs.map Callback.out ∧
    notifyAll (pre ++ cb :: post) = (pre.map Callback.out ++ [cb.out], some cb.out) ∧
    (endGameNotify s stateCbs (pre ++ cb :: post)).1.isOver = true := by
  refine ⟨notifyCaught_map stateCbs, ?_, rfl⟩
  induction pre with
  | nil => simp [notifyAll, hcb]
  | cons c rest ih =>
    have hc : c.throws = false := hpre c (List.mem_cons_self c rest)
    have ih2 := ih fun x hx => hpre x (List.mem_cons_of_mem c hx)
    simp [notifyAll, hc, ih2]

/-- Claim C9, witness for the amended theorem at concrete callback lists. -/
theorem claimC9_witness :
    notifyCaught [({ out := 7, throws := true } : Callback)] =
      List.map Callback.out [({ out := 7, throws := true } : Callback)] ∧
    notifyAll ([({ out := 1, throws := false } : Callback)] ++
        ({ out := 2, throws := true } : Callback) :: [({ out := 3, throws := false } : Callback)]) =
      (List.map Callback.out [({ out := 1, throws := false } : Callback)] ++
        [({ out := 2, throws := true } : Callback).out],
       some ({ out := 2, throws := true } : Callback).out) ∧
    (endGameNotify (newGameState catDogText none) [({ out := 7, throws := true } : Callback)]
        ([({ out := 1, throws := false } : Callback)] ++
          ({ out := 2, throws := true } : Callback) :: [({ out := 3, throws := false } : Callback)])).1.isOver = true :=
  claimC9_amended [{ out := 7, throws := true }] [{ out := 1, throws := false }]
    [{ out := 3, throws := false }] { out := 2, throws := true }
    (newGameState catDogText none) (by decide) rfl

/-- Claim C10.  Calling start on a non-running state sets isRunning, resets
the counter to 0 and clears isOver while leaving the text, the grid with all
its marks, the time limit and the caret untouched; calling start while
running changes nothing. -/
theorem claimC10_start (s : GameState) :
    (s.isRunning = false →
      (start s).isRunning = true ∧ (start s).counter = 0 ∧ (start s).isOver = false ∧
      (start s).text = s.text ∧ (start s).data = s.data ∧
      (start s).timeLimit = s.timeLimit ∧ (start s).currentPos = s.currentPos) ∧
    (s.isRunning = true → start s = s) := by
  constructor
  · intro h
    simp [start, h]
  · intro h
    simp [start, h]

/-- Claim C10, witness at a fresh cat-dog game and at the same game already
running. -/
theorem claimC10_witness :
    ((start (newGameState catDogText none)).isRunning = true ∧
      (start (newGameState catDogText none)).counter = 0 ∧
      (start (newGameState catDogText none)).isOver = false ∧
      (start (newGameState catDogText none)).text = (newGameState catDogText none).text ∧
      (start (newGameState catDogText none)).data = (newGameState catDogText none).data ∧
      (start (newGameState catDogText none)).timeLimit = (newGameState catDogText none).timeLimit ∧
      (start (newGameState catDogText none)).currentPos = (newGameState catDogText none).currentPos) ∧
    start { newGameState catDogText none with isRunning := true } =
      { newGameState catDogText none with isRunning := true } :=
  ⟨(claimC10_start (newGameState catDogText none)).1 rfl,
   (claimC10_start { newGameState catDogText none with isRunning := true }).2 rfl⟩

end Typing

